import Mathlib

/-!
Shallow embedding of the halloween-spider animatronic controller
(`src/main.py`, `src/main_save.py`).

`main.py` runs four coroutines under a single-threaded cooperative
scheduler: a `Controller` that periodically fans a trigger out to three
actuator tasks (`LedTask`, `SpeakerTask`, `MotorTask`), each of which loops
forever on {wait for its pause event, clear it, run one bounded animation,
set its clear event}.  `main_save.py` is a motion-sensor polling loop that
acts once per rising edge of the PIR input.

Each coroutine's per-iteration behaviour is embedded as the list of
observable events it performs in program order (hardware writes, sleeps,
event-signal operations).  `asyncio.Event` is embedded as a flag plus the
queue of suspended waiters.  Python's floor division `//` is `Int.fdiv`,
`randint`/`choice` results are universally quantified parameters, and
`range(start, stop, step)` is `pyRange`.
-/

/-- Model of `asyncio.Event` (the spec's Signal): the boolean flag plus the
queue of task ids currently suspended in `wait()`. -/
structure AsyncEvent where
  flag : Bool
  waiters : List Nat
deriving DecidableEq

/-- `Event.set()`: mark the flag true and wake every current waiter.  Returns
the new state together with the list of woken task ids. -/
def AsyncEvent.set (s : AsyncEvent) : AsyncEvent × List Nat :=
  (⟨true, []⟩, s.waiters)

/-- `Event.clear()`: mark the flag false; suspended waiters stay suspended. -/
def AsyncEvent.clear (s : AsyncEvent) : AsyncEvent :=
  ⟨false, s.waiters⟩

/-- `Event.wait()` called by task `tid`: returns immediately (`true`) when the
flag is already set, otherwise suspends the caller on the queue (`false`). -/
def AsyncEvent.wait (s : AsyncEvent) (tid : Nat) : Bool × AsyncEvent :=
  if s.flag then (true, s) else (false, ⟨s.flag, s.waiters ++ [tid]⟩)

/-- The `asyncio.gather(led_task.clear_event.wait(), speaker_task...wait(),
motor_task...wait())` join in `Controller.run`: it completes exactly when all
three completion flags are set. -/
def gatherAllDone (led speaker motor : AsyncEvent) : Bool :=
  led.flag && speaker.flag && motor.flag

/-- An RGB color as written to `adafruit_rgbled.RGBLED.color`. -/
structure Color where
  r : Int
  g : Int
  b : Int
deriving DecidableEq

/-- Python floor division `(new - old) // 20` computing one interpolation
delta in `LedTask.run`. -/
def chanDelta (old new : Int) : Int := (new - old).fdiv 20

/-- Channel value written by the inner interpolation loop of `LedTask.run`
after `k + 1` of its 20 increments: `old + delta * (k + 1)`. -/
def interpChan (old new : Int) (k : Nat) : Int :=
  old + chanDelta old new * (k + 1)

def interpColor (old new : Color) (k : Nat) : Color :=
  ⟨interpChan old.r new.r k, interpChan old.g new.g k, interpChan old.b new.b k⟩

/-- Value of `(old_red, old_grn, old_blu)` after one full 20-step segment. -/
def segFinal (old new : Color) : Color := interpColor old new 19

/-- Observable per-iteration events of the actuator task coroutines. -/
inductive Ev where
  | waitTrigger : Ev
  | clearTrigger : Ev
  | setDone : Ev
  | writeColor : Color → Ev
  | loadClip : String → Ev
  | startPlayback : String → Ev
  | writeThrottle : ℚ → Ev
  | sleepFor : ℚ → Ev
deriving DecidableEq

/-- Events of one 20-step interpolation segment of `LedTask.run` (the inner
`for _ in range(20)` body, each write followed by `asyncio.sleep(0.025)`,
plus the trailing `asyncio.sleep(1)`). -/
def segEvents (old new : Color) : List Ev :=
  ((List.range 20).map fun k =>
    [Ev.writeColor (interpColor old new k), Ev.sleepFor 0.025]).flatten
    ++ [Ev.sleepFor 1]

/-- The "home in on random color" loop of `LedTask.run` (`for i in range(20)`),
one random target per segment, threading the interpolation state; returns the
events together with the final `(old_red, old_grn, old_blu)` value. -/
def ledSegsEvents (old : Color) (targets : List Color) : List Ev × Color :=
  match targets with
  | [] => ([], old)
  | t :: ts =>
    let rest := ledSegsEvents (segFinal old t) ts
    (segEvents old t ++ rest.1, rest.2)

/-- Animation events of one `LedTask.run` cycle starting from interpolation
state `start`: the random-target segments, the "home in on red" segment, then
the held red flash and off. -/
def ledAnimEvents (start : Color) (targets : List Color) : List Ev :=
  (ledSegsEvents start targets).1
    ++ segEvents (ledSegsEvents start targets).2 ⟨255, 0, 0⟩
    ++ [Ev.writeColor ⟨255, 0, 0⟩, Ev.sleepFor 1, Ev.writeColor ⟨0, 0, 0⟩]

/-- One iteration of `LedTask.run`'s `while True` loop.  Its first statement
after clearing the pause event assigns `old_red, old_grn, old_blu = 0, 0, 0`,
so the carried interpolation state `carry` from the previous iteration is
discarded.  Returns the iteration's events and the value the interpolation
variables hold when the iteration ends. -/
def ledRunStep (carry : Color) (targets : List Color) : List Ev × Color :=
  ([Ev.waitTrigger, Ev.clearTrigger] ++ ledAnimEvents ⟨0, 0, 0⟩ targets ++ [Ev.setDone],
   segFinal (ledSegsEvents ⟨0, 0, 0⟩ targets).2 ⟨255, 0, 0⟩)

/-- The unending `LedTask.run` loop: iteration `n` with the carried state from
iteration `n - 1`, given the stream of per-cycle random target colors. -/
def ledRunTrace (pars : Nat → List Color) : Nat → List Ev × Color
  | 0 => ledRunStep ⟨0, 0, 0⟩ (pars 0)
  | n + 1 => ledRunStep (ledRunTrace pars n).2 (pars (n + 1))

/-- Events of the `n`-th iteration of `LedTask.run`. -/
def ledRun (pars : Nat → List Color) (n : Nat) : List Ev :=
  (ledRunTrace pars n).1

/-- `SpeakerTask._sounds`, the fixed playlist. -/
def speakerSounds : List String :=
  ["sounds/spider_one.mp3", "sounds/spider_two.mp3",
   "sounds/spider_three.mp3", "sounds/spider_four.mp3"]

/-- One iteration of `SpeakerTask.run`: wait, clear, build the `MP3Decoder`
for the clip drawn by `choice`, call `self._audio.play(mp3)` (which starts
playback and returns), then immediately set the done event. -/
def speakerCycleEvents (clip : String) : List Ev :=
  [Ev.waitTrigger, Ev.clearTrigger, Ev.loadClip clip, Ev.startPlayback clip,
   Ev.setDone]

/-- Events of the `n`-th iteration of `SpeakerTask.run`, given the stream of
clips drawn by `choice`. -/
def speakerRun (clips : Nat → String) (n : Nat) : List Ev :=
  speakerCycleEvents (clips n)

/-- Number of elements of Python `range(start, stop, step)` for `step ≠ 0`. -/
def pyRangeLen (start stop step : Int) : Nat :=
  if 0 < step then ((stop - start + step - 1).fdiv step).toNat
  else ((start - stop + (-step) - 1).fdiv (-step)).toNat

/-- Python `range(start, stop, step)` as a list. -/
def pyRange (start stop step : Int) : List Int :=
  (List.range (pyRangeLen start stop step)).map fun k => start + step * k

/-- Animation events of one `MotorTask.run` cycle: throttle ramp up over
`range(16, 50, 4)` with `asyncio.sleep(0.3)` per step, `asyncio.sleep(2.0)`
at the peak, ramp down over `range(50, 16, -4)`, then `throttle = 0`. -/
def motorAnimEvents : List Ev :=
  ((pyRange 16 50 4).map fun d =>
    [Ev.writeThrottle ((d : ℚ) / 100), Ev.sleepFor 0.3]).flatten
    ++ [Ev.sleepFor 2]
    ++ ((pyRange 50 16 (-4)).map fun d =>
      [Ev.writeThrottle ((d : ℚ) / 100), Ev.sleepFor 0.3]).flatten
    ++ [Ev.writeThrottle 0]

/-- One iteration of `MotorTask.run`'s `while True` loop. -/
def motorCycleEvents : List Ev :=
  [Ev.waitTrigger, Ev.clearTrigger] ++ motorAnimEvents ++ [Ev.setDone]

/-- Events of the `n`-th iteration of `MotorTask.run` (no per-cycle
randomness). -/
def motorRun (n : Nat) : List Ev := motorCycleEvents

/-- The three registered task names of `main()`. -/
inductive TaskName where
  | led : TaskName
  | speaker : TaskName
  | motor : TaskName
deriving DecidableEq

/-- Observable per-iteration events of the `Controller.run` coroutine. -/
inductive CEv where
  | setTrigger : TaskName → CEv
  | sleepFor : ℚ → CEv
  | joinAllDone : CEv
  | clearDone : TaskName → CEv
  | lightSleep : ℚ → CEv
deriving DecidableEq

/-- Events of one iteration of `Controller.run`'s `while True` loop, with the
values drawn by `randint(1, 2)` and `randint(60, 120)` as parameters `d1` and
`cool`: set the led pause event, sleep `d1`, set the speaker pause event,
sleep 3, set the motor pause event, gather on the three clear events, clear
them, then light-sleep and `asyncio.sleep` for `cool`. -/
def controllerCycleEvents (d1 cool : ℚ) : List CEv :=
  [CEv.setTrigger TaskName.led, CEv.sleepFor d1,
   CEv.setTrigger TaskName.speaker, CEv.sleepFor 3,
   CEv.setTrigger TaskName.motor,
   CEv.joinAllDone,
   CEv.clearDone TaskName.led, CEv.clearDone TaskName.speaker,
   CEv.clearDone TaskName.motor,
   CEv.lightSleep cool, CEv.sleepFor cool]

/-- Events of the `n`-th firing cycle of `Controller.run`, given the streams
of `randint(1, 2)` and `randint(60, 120)` draws. -/
def controllerRun (d1s cools : Nat → ℚ) (n : Nat) : List CEv :=
  controllerCycleEvents (d1s n) (cools n)

/-- The task-trigger `set()` calls of a controller event list, in order. -/
def triggerSets (es : List CEv) : List TaskName :=
  es.filterMap fun e =>
    match e with
    | CEv.setTrigger t => some t
    | _ => none

/-- `Controller._tasks`: the name → task dictionary (most recent binding for a
name first). -/
structure Controller where
  tasks : List (String × TaskName)
deriving DecidableEq

/-- `Controller.add_task`: `self._tasks[task.name] = task`.  The body performs
no validation, so it always succeeds; the `Except` result records that no
construction-time failure can arise here. -/
def Controller.addTask (c : Controller) (name : String) (t : TaskName) :
    Except String Controller :=
  Except.ok ⟨(name, t) :: c.tasks⟩

/-- Construction phase of `main()`: a fresh `Controller` followed by the
`add_task` calls, sequenced in `Except` so that any construction-time failure
would surface in the result. -/
def buildController (entries : List (String × TaskName)) : Except String Controller :=
  entries.foldlM (fun c e => c.addTask e.1 e.2) ⟨[]⟩

/-- `self._tasks.get(name)`: dictionary lookup, `none` when the name was never
registered. -/
def Controller.get (c : Controller) (name : String) : Option TaskName :=
  c.tasks.lookup name

/-- First failure of one firing cycle of `Controller.run`: each fan-out stage
evaluates `self._tasks.get(name).pause_event.set()`, which raises
`AttributeError` on `None` when `name` was never registered.  `none` means the
fan-out succeeds.  The stages run in the order led, speaker, motor. -/
def firstFiringError (c : Controller) : Option String :=
  if (c.get "led").isNone then some "led"
  else if (c.get "speaker").isNone then some "speaker"
  else if (c.get "motor").isNone then some "motor"
  else none

/-- Observable events of the `main_save.py` polling loop. -/
inductive MEv where
  | ledOn : MEv
  | ledOff : MEv
  | motionDetected : MEv
  | motionEnded : MEv
deriving DecidableEq

/-- One iteration of the `while True` loop of `main_save.py`, given the
previous reading `old` (`old_pir_value`) and the current reading: the status
LED write, plus the edge-detection action (the `print` on a detected edge). -/
def motionStep (old reading : Bool) : List MEv :=
  if reading then
    MEv.ledOn :: (if !old then [MEv.motionDetected] else [])
  else
    MEv.ledOff :: (if old then [MEv.motionEnded] else [])

/-- The polling loop of `main_save.py` over a finite prefix of sensor
readings, threading `old_pir_value`. -/
def motionRun (old : Bool) (readings : List Bool) : List MEv :=
  match readings with
  | [] => []
  | r :: rs => motionStep old r ++ motionRun r rs

/-- Number of triggered actions (`motion detected`) in an event list. -/
def detectCount (es : List MEv) : Nat :=
  es.countP fun e => decide (e = MEv.motionDetected)

/-- Number of rising edges (previous reading false, current reading true) of a
reading sequence with initial previous value `old`. -/
def risingEdges (old : Bool) (readings : List Bool) : Nat :=
  match readings with
  | [] => 0
  | r :: rs => (if r && !old then 1 else 0) + risingEdges r rs

/-- Animation-only events: everything except the trigger-wait, trigger-clear
and done-set of the shared loop skeleton. -/
def Ev.isAnim : Ev → Bool
  | Ev.waitTrigger => false
  | Ev.clearTrigger => false
  | Ev.setDone => false
  | _ => true

/-- The throttle values written by an event list, in order. -/
def throttleWrites (es : List Ev) : List ℚ :=
  es.filterMap fun e =>
    match e with
    | Ev.writeThrottle t => some t
    | _ => none

/-- The colors written by an event list, in order. -/
def colorWrites (es : List Ev) : List Color :=
  es.filterMap fun e =>
    match e with
    | Ev.writeColor c => some c
    | _ => none

/-- Each channel of the color lies in the driver's 0–255 intensity range. -/
def colorInRange (c : Color) : Prop :=
  0 ≤ c.r ∧ c.r ≤ 255 ∧ 0 ≤ c.g ∧ c.g ≤ 255 ∧ 0 ≤ c.b ∧ c.b ≤ 255

instance colorInRange.decPred : DecidablePred colorInRange := by
  intro c
  unfold colorInRange
  infer_instance

/-- Invariant of one interpolation channel at a segment boundary of
`LedTask.run`: the value is a multiple of 20 between 0 and 240. -/
def chanInv (x : Int) : Prop := 0 ≤ x ∧ x ≤ 240 ∧ 20 ∣ x

/-- Segment-boundary invariant for all three channels. -/
def colorInv (c : Color) : Prop := chanInv c.r ∧ chanInv c.g ∧ chanInv c.b

/-- Spec side of C4: the claimed ascending throttle sequence
`[0.16, 0.20, 0.24, ..., 0.48]`. -/
def specAscendingThrottles : List ℚ :=
  [0.16, 0.20, 0.24, 0.28, 0.32, 0.36, 0.40, 0.44, 0.48]

/-- Spec side of C4, following the claim's words: the ascending sequence, then
the mirrored sequence of those same values descending, then a final write of
throttle 0. -/
def specMirroredThrottleWrites : List ℚ :=
  specAscendingThrottles ++ specAscendingThrottles.reverse ++ [0]

/-! ### Helper lemmas -/

theorem chanDelta_eq_ediv (old new : Int) : chanDelta old new = (new - old) / 20 :=
  Int.fdiv_eq_ediv _ (by norm_num)

theorem interpChan_bounds {old new : Int} (k : Nat) (hk : k < 20)
    (h : chanInv old) (h0 : 0 ≤ new) (h255 : new ≤ 255) :
    0 ≤ interpChan old new k ∧ interpChan old new k ≤ 255 := by
  obtain ⟨ha, hb, hc⟩ := h
  unfold interpChan
  rw [chanDelta_eq_ediv]
  interval_cases k <;> omega

theorem interpChan_final_inv {old new : Int} (h : chanInv old) (h0 : 0 ≤ new)
    (h255 : new ≤ 255) : chanInv (interpChan old new 19) := by
  obtain ⟨ha, hb, hc⟩ := h
  unfold chanInv interpChan
  rw [chanDelta_eq_ediv]
  omega

theorem interpColor_inRange {old new : Color} (k : Nat) (hk : k < 20)
    (h : colorInv old) (hn : colorInRange new) :
    colorInRange (interpColor old new k) := by
  obtain ⟨h1, h2, h3⟩ := h
  obtain ⟨n1, n2, n3, n4, n5, n6⟩ := hn
  have hr := interpChan_bounds k hk h1 n1 n2
  have hg := interpChan_bounds k hk h2 n3 n4
  have hb := interpChan_bounds k hk h3 n5 n6
  exact ⟨hr.1, hr.2, hg.1, hg.2, hb.1, hb.2⟩

theorem segFinal_inv {old new : Color} (h : colorInv old) (hn : colorInRange new) :
    colorInv (segFinal old new) := by
  obtain ⟨h1, h2, h3⟩ := h
  obtain ⟨n1, n2, n3, n4, n5, n6⟩ := hn
  exact ⟨interpChan_final_inv h1 n1 n2, interpChan_final_inv h2 n3 n4,
    interpChan_final_inv h3 n5 n6⟩

theorem segEvents_color_mem {old new c : Color}
    (hc : Ev.writeColor c ∈ segEvents old new) :
    ∃ k, k < 20 ∧ c = interpColor old new k := by
  unfold segEvents at hc
  simp only [List.mem_append, List.mem_flatten, List.mem_map, List.mem_range] at hc
  rcases hc with ⟨l, ⟨k, hk, rfl⟩, hm⟩ | hm
  · simp only [List.mem_cons, List.not_mem_nil, or_false] at hm
    rcases hm with hm | hm
    · exact ⟨k, hk, by injection hm⟩
    · exact absurd hm (by simp)
  · exact absurd hm (by simp)

theorem ledSegsEvents_sound {targets : List Color} :
    ∀ {old : Color}, colorInv old → (∀ t ∈ targets, colorInRange t) →
      (∀ c : Color, Ev.writeColor c ∈ (ledSegsEvents old targets).1 → colorInRange c) ∧
      colorInv (ledSegsEvents old targets).2 := by
  induction targets with
  | nil =>
    intro old h _
    refine ⟨?_, h⟩
    intro c hc
    simp [ledSegsEvents] at hc
  | cons t ts ih =>
    intro old h hts
    have ht : colorInRange t := hts t (List.mem_cons_self t ts)
    have hrest := ih (segFinal_inv h ht) (fun x hx => hts x (List.mem_cons_of_mem t hx))
    constructor
    · intro c hc
      have hc2 : Ev.writeColor c ∈ segEvents old t ++ (ledSegsEvents (segFinal old t) ts).1 := hc
      rcases List.mem_append.1 hc2 with hm | hm
      · obtain ⟨k, hk, rfl⟩ := segEvents_color_mem hm
        exact interpColor_inRange k hk h ht
      · exact hrest.1 c hm
    · exact hrest.2

theorem segEvents_isAnim {old new : Color} : ∀ e ∈ segEvents old new, e.isAnim = true := by
  intro e he
  unfold segEvents at he
  simp only [List.mem_append, List.mem_flatten, List.mem_map, List.mem_range] at he
  rcases he with ⟨l, ⟨k, hk, rfl⟩, hm⟩ | hm
  · simp only [List.mem_cons, List.not_mem_nil, or_false] at hm
    rcases hm with rfl | rfl <;> rfl
  · simp only [List.mem_cons, List.not_mem_nil, or_false] at hm
    subst hm
    rfl

theorem ledSegs_isAnim {targets : List Color} :
    ∀ {old : Color}, ∀ e ∈ (ledSegsEvents old targets).1, e.isAnim = true := by
  induction targets with
  | nil =>
    intro old e he
    simp [ledSegsEvents] at he
  | cons t ts ih =>
    intro old e he
    have he2 : e ∈ segEvents old t ++ (ledSegsEvents (segFinal old t) ts).1 := he
    rcases List.mem_append.1 he2 with hm | hm
    · exact segEvents_isAnim e hm
    · exact ih e hm

theorem ledAnim_isAnim {start : Color} {targets : List Color} :
    ∀ e ∈ ledAnimEvents start targets, e.isAnim = true := by
  intro e he
  unfold ledAnimEvents at he
  rcases List.mem_append.1 he with hm | hm
  · rcases List.mem_append.1 hm with h1 | h1
    · exact ledSegs_isAnim e h1
    · exact segEvents_isAnim e h1
  · simp only [List.mem_cons, List.not_mem_nil, or_false] at hm
    rcases hm with rfl | rfl | rfl <;> rfl

theorem motorAnim_isAnim : ∀ e ∈ motorAnimEvents, e.isAnim = true := by decide

theorem ledRun_eq (pars : Nat → List Color) (n : Nat) :
    ledRun pars n = Ev.waitTrigger :: Ev.clearTrigger ::
      (ledAnimEvents ⟨0, 0, 0⟩ (pars n) ++ [Ev.setDone]) := by
  cases n <;> rfl

theorem mem_colorWrites {c : Color} {es : List Ev} :
    c ∈ colorWrites es ↔ Ev.writeColor c ∈ es := by
  unfold colorWrites
  rw [List.mem_filterMap]
  constructor
  · rintro ⟨e, he, hfe⟩
    cases e <;> simp_all
  · intro h
    exact ⟨Ev.writeColor c, h, rfl⟩

theorem detectCount_append (a b : List MEv) :
    detectCount (a ++ b) = detectCount a + detectCount b := by
  simp [detectCount, List.countP_append]

theorem detectCount_motionStep (old r : Bool) :
    detectCount (motionStep old r) = if r && !old then 1 else 0 := by
  cases old <;> cases r <;> rfl

theorem motionRun_detectCount (readings : List Bool) :
    ∀ old, detectCount (motionRun old readings) = risingEdges old readings := by
  induction readings with
  | nil => intro old; rfl
  | cons r rs ih =>
    intro old
    show detectCount (motionStep old r ++ motionRun r rs) = _
    rw [detectCount_append, detectCount_motionStep, ih r]
    rfl

theorem risingEdges_sustained (readings : List Bool) :
    (∀ r ∈ readings, r = true) → risingEdges true readings = 0 := by
  induction readings with
  | nil => intro _; rfl
  | cons r rs ih =>
    intro h
    have hr : r = true := h r (List.mem_cons_self r rs)
    subst hr
    show (if true && !true then 1 else 0) + risingEdges true rs = 0
    simp [ih (fun x hx => h x (List.mem_cons_of_mem _ hx))]

theorem buildController_ok_aux (entries : List (String × TaskName)) :
    ∀ c0 : Controller,
      ∃ c, entries.foldlM (fun c e => c.addTask e.1 e.2) c0 = Except.ok c := by
  induction entries with
  | nil => intro c0; exact ⟨c0, rfl⟩
  | cons e es ih =>
    intro c0
    exact ih ⟨(e.1, e.2) :: c0.tasks⟩

theorem motor_ramp_up_eval : pyRange 16 50 4 = [16, 20, 24, 28, 32, 36, 40, 44, 48] := by
  decide

theorem motor_ramp_down_eval : pyRange 50 16 (-4) = [50, 46, 42, 38, 34, 30, 26, 22, 18] := by
  decide

theorem motor_throttle_writes_eval :
    throttleWrites motorCycleEvents =
      [16/100, 20/100, 24/100, 28/100, 32/100, 36/100, 40/100, 44/100, 48/100,
       50/100, 46/100, 42/100, 38/100, 34/100, 30/100, 26/100, 22/100, 18/100, 0] := by
  unfold throttleWrites motorCycleEvents motorAnimEvents
  rw [motor_ramp_up_eval, motor_ramp_down_eval]
  norm_num [List.filterMap_cons]

theorem specMirrored_eval : specMirroredThrottleWrites =
    [0.16, 0.20, 0.24, 0.28, 0.32, 0.36, 0.40, 0.44, 0.48,
     0.48, 0.44, 0.40, 0.36, 0.32, 0.28, 0.24, 0.20, 0.16, 0] := by
  unfold specMirroredThrottleWrites specAscendingThrottles
  rfl

/-! ### Claim theorems -/

/-- C1: in every firing cycle of `Controller.run`, the `set()` of the led
task's pause event happens strictly before the `set()` of the speaker task's
pause event, which happens strictly before the `set()` of the motor task's
pause event: the trigger `set()` calls of the cycle, in program order, are
exactly led, speaker, motor. -/
theorem c1_fanout_order (d1s cools : Nat → ℚ) (n : Nat) :
    triggerSets (controllerRun d1s cools n) =
      [TaskName.led, TaskName.speaker, TaskName.motor] := rfl

/-- C2: the gather join of `Controller.run` never completes while fewer than
all three completion events are set; once all three are set it completes, the
controller clears all three, and an immediately subsequent `wait()` on any of
them suspends the caller instead of returning. -/
theorem c2_waiting_all_done (led speaker motor : AsyncEvent) (tid : Nat) :
    (gatherAllDone led speaker motor = true →
      led.flag = true ∧ speaker.flag = true ∧ motor.flag = true) ∧
    (led.flag = true → speaker.flag = true → motor.flag = true →
      gatherAllDone led speaker motor = true ∧
      (led.clear.wait tid).1 = false ∧
      (speaker.clear.wait tid).1 = false ∧
      (motor.clear.wait tid).1 = false) := by
  constructor
  · intro h
    simp only [gatherAllDone, Bool.and_eq_true] at h
    exact ⟨h.1.1, h.1.2, h.2⟩
  · intro h1 h2 h3
    simp [gatherAllDone, AsyncEvent.clear, AsyncEvent.wait, h1, h2, h3]

/-- Witness for C2 at concrete signal states. -/
theorem c2_waiting_all_done_witness :
    gatherAllDone ⟨true, []⟩ ⟨true, []⟩ ⟨true, []⟩ = true ∧
    ((AsyncEvent.clear ⟨true, []⟩).wait 0).1 = false := by
  have h := (c2_waiting_all_done ⟨true, []⟩ ⟨true, []⟩ ⟨true, []⟩ 0).2 rfl rfl rfl
  exact ⟨h.1, h.2.1⟩

/-- C3: every iteration of each actuator task's `run()` loop is: wait on the
pause event, clear it, a bounded list of animation-only events, then set the
clear event — for `LedTask`, `SpeakerTask` and `MotorTask` alike. -/
theorem c3_actuator_loop_shape (pars : Nat → List Color) (clips : Nat → String)
    (n : Nat) :
    (∃ a, ledRun pars n = Ev.waitTrigger :: Ev.clearTrigger :: (a ++ [Ev.setDone]) ∧
      ∀ e ∈ a, e.isAnim = true) ∧
    (∃ a, speakerRun clips n = Ev.waitTrigger :: Ev.clearTrigger :: (a ++ [Ev.setDone]) ∧
      ∀ e ∈ a, e.isAnim = true) ∧
    (∃ a, motorRun n = Ev.waitTrigger :: Ev.clearTrigger :: (a ++ [Ev.setDone]) ∧
      ∀ e ∈ a, e.isAnim = true) := by
  refine ⟨⟨ledAnimEvents ⟨0, 0, 0⟩ (pars n), ledRun_eq pars n,
      fun e he => ledAnim_isAnim e he⟩,
    ⟨[Ev.loadClip (clips n), Ev.startPlayback (clips n)], rfl, ?_⟩,
    ⟨motorAnimEvents, rfl, motorAnim_isAnim⟩⟩
  intro e he
  simp only [List.mem_cons, List.not_mem_nil, or_false] at he
  rcases he with rfl | rfl <;> rfl

/-- C4 counterexample: the descending half of the throttle sequence that
`MotorTask.run` writes is not the mirror of the ascending half — the cycle's
writes differ from the spec's mirrored sequence (the descent runs
0.50, 0.46, ..., 0.18 rather than 0.48, 0.44, ..., 0.16). -/
theorem c4_descending_not_mirrored :
    throttleWrites motorCycleEvents ≠ specMirroredThrottleWrites := by
  rw [motor_throttle_writes_eval, specMirrored_eval]
  intro h
  norm_num at h

/-- C4 (amended): each `MotorTask` cycle writes the ascending throttles
0.16, 0.20, ..., 0.48, then the descending throttles 0.50, 0.46, ..., 0.18
(offset one step from the ascending values, not their mirror), and the final
write of the cycle is throttle 0. -/
theorem c4_throttle_sequence :
    throttleWrites motorCycleEvents =
      [0.16, 0.20, 0.24, 0.28, 0.32, 0.36, 0.40, 0.44, 0.48] ++
      [0.50, 0.46, 0.42, 0.38, 0.34, 0.30, 0.26, 0.22, 0.18] ++ [0] := by
  rw [motor_throttle_writes_eval]
  norm_num

/-- C5: in every `SpeakerTask.run` cycle the done event is set immediately
after playback is initiated — `startPlayback` is at index 3 and `setDone` is
the very next event, with no waiting between them, as the full trace shows. -/
theorem c5_done_immediately_after_playback (clips : Nat → String) (n : Nat) :
    (speakerRun clips n).get? 3 = some (Ev.startPlayback (clips n)) ∧
    (speakerRun clips n).get? 4 = some Ev.setDone ∧
    speakerRun clips n =
      [Ev.waitTrigger, Ev.clearTrigger, Ev.loadClip (clips n),
       Ev.startPlayback (clips n), Ev.setDone] := ⟨rfl, rfl, rfl⟩

/-- C6 counterexample: with "speaker" and "motor" registered but no task named
"led", construction succeeds (no failure at startup), and the failure
surfaces only at trigger-time, in the firing cycle's led lookup. -/
theorem c6_no_failure_at_construction :
    buildController [("speaker", TaskName.speaker), ("motor", TaskName.motor)] =
      Except.ok ⟨[("motor", TaskName.motor), ("speaker", TaskName.speaker)]⟩ ∧
    firstFiringError ⟨[("motor", TaskName.motor), ("speaker", TaskName.speaker)]⟩ =
      some "led" := ⟨rfl, rfl⟩

/-- C6 (amended): a missing registered task is not detected at construction —
`add_task` performs no validation, so building the controller always
succeeds — and the bad task-name lookup fails at trigger-time during the
firing cycle, exactly when one of the fan-out names is unregistered. -/
theorem c6_failure_at_trigger_time (entries : List (String × TaskName)) :
    ∃ c : Controller, buildController entries = Except.ok c ∧
      (firstFiringError c = none ↔
        (c.get "led" ≠ none ∧ c.get "speaker" ≠ none ∧ c.get "motor" ≠ none)) := by
  obtain ⟨c, hc⟩ := buildController_ok_aux entries ⟨[]⟩
  refine ⟨c, hc, ?_⟩
  unfold firstFiringError
  rcases hled : c.get "led" with _ | t1 <;>
    rcases hspk : c.get "speaker" with _ | t2 <;>
      rcases hmot : c.get "motor" with _ | t3 <;>
        simp

/-- Witness for C6 (amended) at a concrete registration list. -/
theorem c6_failure_at_trigger_time_witness :
    ∃ c : Controller,
      buildController [("led", TaskName.led), ("speaker", TaskName.speaker),
        ("motor", TaskName.motor)] = Except.ok c ∧
      (firstFiringError c = none ↔
        (c.get "led" ≠ none ∧ c.get "speaker" ≠ none ∧ c.get "motor" ≠ none)) :=
  c6_failure_at_trigger_time
    [("led", TaskName.led), ("speaker", TaskName.speaker), ("motor", TaskName.motor)]

/-- C7: every color `LedTask.run` writes during an animation cycle has each
channel within 0–255, for every choice of random target colors with channels
in 0–255. -/
theorem c7_led_colors_in_range (pars : Nat → List Color) (n : Nat)
    (h : ∀ t ∈ pars n, colorInRange t) :
    ∀ c ∈ colorWrites (ledRun pars n), colorInRange c := by
  intro c hc
  have hmem : Ev.writeColor c ∈ ledRun pars n := mem_colorWrites.1 hc
  rw [ledRun_eq] at hmem
  simp only [List.mem_cons, List.mem_append, List.not_mem_nil, or_false,
    reduceCtorEq, false_or] at hmem
  unfold ledAnimEvents at hmem
  simp only [List.mem_append, List.mem_cons, List.not_mem_nil, or_false,
    reduceCtorEq, false_or, or_false, Ev.writeColor.injEq] at hmem
  have hinv0 : colorInv ⟨0, 0, 0⟩ :=
    ⟨⟨le_refl 0, by norm_num, ⟨0, by norm_num⟩⟩,
     ⟨le_refl 0, by norm_num, ⟨0, by norm_num⟩⟩,
     ⟨le_refl 0, by norm_num, ⟨0, by norm_num⟩⟩⟩
  have hred : colorInRange ⟨255, 0, 0⟩ := by
    refine ⟨by norm_num, by norm_num, le_refl 0, by norm_num, le_refl 0, by norm_num⟩
  have hsound := ledSegsEvents_sound hinv0 h
  rcases hmem with (hm | hm) | hm | hm
  · exact hsound.1 c hm
  · obtain ⟨k, hk, rfl⟩ := segEvents_color_mem hm
    exact interpColor_inRange k hk hsound.2 hred
  · subst hm
    exact hred
  · subst hm
    exact ⟨le_refl 0, by norm_num, le_refl 0, by norm_num, le_refl 0, by norm_num⟩

/-- Witness for C7 at a concrete target list. -/
theorem c7_led_colors_in_range_witness :
    (∀ t ∈ [Color.mk 255 7 0], colorInRange t) ∧
    ∀ c ∈ colorWrites (ledRun (fun _ => [Color.mk 255 7 0]) 0), colorInRange c :=
  ⟨by decide, c7_led_colors_in_range (fun _ => [Color.mk 255 7 0]) 0 (by decide)⟩

/-- C8: the `main_save.py` loop performs its triggered action exactly once per
rising edge of the motion input (previous reading false, current true), and a
sustained true reading with no new edge triggers no additional action. -/
theorem c8_motion_rising_edge (old : Bool) (readings : List Bool) :
    detectCount (motionRun old readings) = risingEdges old readings ∧
    ((∀ r ∈ readings, r = true) → old = true →
      detectCount (motionRun old readings) = 0) := by
  refine ⟨motionRun_detectCount readings old, ?_⟩
  intro h hold
  subst hold
  rw [motionRun_detectCount readings true]
  exact risingEdges_sustained readings h

/-- Witness for C8 at concrete reading sequences. -/
theorem c8_motion_rising_edge_witness :
    detectCount (motionRun false [true, true, false, true]) =
      risingEdges false [true, true, false, true] ∧
    detectCount (motionRun true [true, true]) = 0 :=
  ⟨(c8_motion_rising_edge false [true, true, false, true]).1,
   (c8_motion_rising_edge true [true, true]).2 (by decide) rfl⟩

/-- C9: `set()` is idempotent — after two consecutive `set()` calls with no
intervening `wait()`/`clear()`, the event state equals the state after one
`set()`, the second `set()` wakes nobody, and the total set of woken waiters
is that of the single `set()`. -/
theorem c9_set_idempotent (s : AsyncEvent) :
    s.set.1.set.1 = s.set.1 ∧ s.set.1.flag = true ∧ s.set.1.set.2 = [] ∧
    s.set.2 ++ s.set.1.set.2 = s.set.2 := by
  refine ⟨rfl, rfl, rfl, ?_⟩
  simp [AsyncEvent.set]

/-- C10: every `LedTask.run` iteration resets the interpolation state to
`(0, 0, 0)`, so the cycle's events do not depend on the color state carried
out of the previous cycle, and each run iteration equals the cycle started at
`(0, 0, 0)`; within a cycle, state does persist from one segment to the next
(each segment starts at the previous segment's final color); and the
interpolation machine itself is sensitive to its start state, so the
independence is due to the reset. -/
theorem c10_cycle_state_reset (pars : Nat → List Color) (n : Nat) :
    (∀ carryA carryB : Color,
      (ledRunStep carryA (pars n)).1 = (ledRunStep carryB (pars n)).1) ∧
    ledRun pars n = (ledRunStep ⟨0, 0, 0⟩ (pars n)).1 ∧
    (∀ (start t : Color) (ts : List Color),
      (ledSegsEvents start (t :: ts)).1 =
        segEvents start t ++ (ledSegsEvents (segFinal start t) ts).1) ∧
    (∃ sA sB : Color, ∃ t : List Color, ledAnimEvents sA t ≠ ledAnimEvents sB t) := by
  refine ⟨fun _ _ => rfl, by cases n <;> rfl, fun _ _ _ => rfl,
    ⟨⟨0, 0, 0⟩, ⟨100, 0, 0⟩, [⟨255, 0, 0⟩], ?_⟩⟩
  intro h
  have h2 := congrArg (fun l => colorWrites l) h
  simp only [colorWrites] at h2
  have h3 := congrArg (fun l => l.get? 0) h2
  simp [ledAnimEvents, segEvents, ledSegsEvents, List.filterMap_append,
    List.filterMap_cons, List.range_succ, interpColor, interpChan, chanDelta] at h3
